import Mathlib

/-!
# Station Agricole — verification of the telemetry ingestion pipeline

Shallow embedding of `src/server.js` (MQTT ingestion, JSONPath extraction,
ChirpStack envelope encoding, sensor/reservoir state update, bounded history,
history queries).  JavaScript numbers are modelled as `ℚ`, timestamps
(`Date` values, millisecond clocks) as `ℤ`, and JSON documents as the
inductive `JSValue` below (JS `undefined` is a distinguished value `vundef`,
which parsed JSON never contains).
-/

/-- A JavaScript value as seen by the pipeline: the JSON universe plus
`undefined` (produced, e.g., by an out-of-bounds array read). -/
inductive JSValue : Type where
  | vnull : JSValue
  | vundef : JSValue
  | vbool : Bool → JSValue
  | vnum : ℚ → JSValue
  | vstr : String → JSValue
  | varr : List JSValue → JSValue
  | vobj : List (String × JSValue) → JSValue
  deriving Repr

open JSValue

/-- JavaScript truthiness: `null`, `undefined`, `false`, `0`, and `""` are
falsy; every object and array is truthy. -/
def truthy : JSValue → Bool
  | vnull => false
  | vundef => false
  | vbool b => b
  | vnum q => decide (q ≠ 0)
  | vstr s => decide (s ≠ "")
  | varr _ => true
  | vobj _ => true

/-- Whether a string is a (nonempty) run of decimal digits, i.e. the form of a
JavaScript array index key. -/
def isDigitString (s : String) : Bool :=
  s ≠ "" && s.data.all Char.isDigit

/-- Decimal value of a digit string. -/
def digitStringToNat (s : String) : ℕ :=
  s.data.foldl (fun acc c => acc * 10 + (c.toNat - 48)) 0

/-- JS own-property presence (`hasOwnProperty`).  Plain objects own their
keys; arrays own `length` and their index keys; strings own `length` and
their index keys; primitives own nothing. -/
def hasOwnKey : JSValue → String → Bool
  | vobj fields, k => fields.any (fun f => f.1 = k)
  | varr xs, k => k = "length" || (isDigitString k && digitStringToNat k < xs.length)
  | vstr s, k => k = "length" || (isDigitString k && digitStringToNat k < s.length)
  | _, _ => false

/-- JS property read `v[k]` for a non-null, non-undefined receiver: objects
give the first binding of the key, arrays give `length` or the indexed
element, strings give `length` or the indexed one-character string; a missing
property reads as `undefined`.  (Reading a property of `null`/`undefined`
throws instead; the thrown case is handled at the call sites below.) -/
def getProp : JSValue → String → JSValue
  | vobj fields, k =>
      match fields.find? (fun f => f.1 = k) with
      | some f => f.2
      | none => vundef
  | varr xs, k =>
      if k = "length" then vnum xs.length
      else if isDigitString k then
        match xs.get? (digitStringToNat k) with
        | some v => v
        | none => vundef
      else vundef
  | vstr s, k =>
      if k = "length" then vnum s.length
      else if isDigitString k && digitStringToNat k < s.length then
        vstr (String.singleton (s.data.getD (digitStringToNat k) ' '))
      else vundef
  | _, _ => vundef

/-- JS array element read `a[i]`; out of bounds reads as `undefined`. -/
def arrGet : JSValue → ℕ → JSValue
  | varr xs, i =>
      match xs.get? i with
      | some v => v
      | none => vundef
  | _, _ => vundef

/-- `Array.isArray`. -/
def isArray : JSValue → Bool
  | varr _ => true
  | _ => false

/-- `typeof v === 'object'` (true for plain objects, arrays and `null`). -/
def typeofIsObject : JSValue → Bool
  | vobj _ => true
  | varr _ => true
  | vnull => true
  | _ => false

/-!
## Path expressions

`extractValueFromJSON` in `server.js` splits the path string at `'.'` and
processes each piece; a piece containing `'['` and `']'` is split into the
identifier before the first `'['` and the digits between the first `'['` and
the first `']'` (`parseInt` of that slice); any further bracket groups in the
same piece are ignored by the code.  We embed paths already split into those
dot-separated pieces: `PathPiece n is` stands for the piece
`n[i₁][i₂]…` (`is = []` for a plain dotted identifier). -/
structure PathPiece : Type where
  name : String
  idxs : List ℕ
  deriving Repr, DecidableEq

/-- Valid identifier per `validateJSONPath`: `[a-zA-Z_][a-zA-Z0-9_]*`. -/
def validIdent (s : String) : Bool :=
  match s.data with
  | [] => false
  | c :: cs => (c.isAlpha || c = '_') && cs.all (fun d => d.isAlphanum || d = '_')

/-- The path grammar accepted by `validateJSONPath`
(`^[a-zA-Z_][a-zA-Z0-9_]*(\.[a-zA-Z_][a-zA-Z0-9_]*|\[\d+\])*$`), stated on
the split representation: a nonempty list of pieces whose names are valid
identifiers (each piece may carry any number of bracket indices). -/
def validPathPieces (ps : List PathPiece) : Bool :=
  ps ≠ [] && ps.all (fun p => validIdent p.name)

/-- Outcome of one iteration of the `for (const part of parts)` loop of
`extractValueFromJSON`: continue with the new `current`, run the
`return null` statement, or throw a `TypeError` (property read on
`null`/`undefined`) that the enclosing `try`/`catch` turns into `null`. -/
inductive ExtractStepResult : Type where
  | next : JSValue → ExtractStepResult
  | retNull : ExtractStepResult
  | thrown : ExtractStepResult
  deriving Repr

open ExtractStepResult

/-- One loop iteration of `extractValueFromJSON`. -/
def extractStep (cur : JSValue) (p : PathPiece) : ExtractStepResult :=
  match p.idxs with
  | i :: _ =>
      -- part contains '[' and ']': arrayName = p.name, index = i (first group)
      match cur with
      | vnull => thrown
      | vundef => thrown
      | _ =>
          let a := getProp cur p.name
          if truthy a && isArray a then next (arrGet a i)
          else retNull
  | [] =>
      -- plain property: current && typeof current === 'object' && hasOwnProperty
      if truthy cur && typeofIsObject cur && hasOwnKey cur p.name then
        next (getProp cur p.name)
      else retNull

/-- The whole loop of `extractValueFromJSON` (a `next` result at the end is
the final `current`). -/
def extractLoop (cur : JSValue) : List PathPiece → ExtractStepResult
  | [] => next cur
  | p :: ps =>
      match extractStep cur p with
      | next v => extractLoop v ps
      | retNull => retNull
      | thrown => thrown

/-- `extractValueFromJSON(jsonObject, jsonPath)`: returns `null` when the
path is empty or the document is falsy; otherwise runs the loop, with both
the `return null` exits and a caught `TypeError` producing `null`. -/
def extractValueFromJSON (jsonObject : JSValue) (jsonPath : List PathPiece) : JSValue :=
  if jsonPath = [] || !truthy jsonObject then vnull
  else
    match extractLoop jsonObject jsonPath with
    | next v => v
    | retNull => vnull
    | thrown => vnull

/-!
## Specification-side path semantics (for the refinement claim C7)

Modelled from the spec: §4.1 — a dotted segment requires the current value to
be a keyed mapping containing that key; a bracket segment requires the
current value to be an ordered sequence with the index in bounds; any
mismatch yields "absent". -/

/-- A single flattened grammar segment: dotted field or numeric index. -/
inductive PathSeg : Type where
  | field : String → PathSeg
  | idx : ℕ → PathSeg
  deriving Repr, DecidableEq

/-- Flattening of the split pieces into grammar segments. -/
def flattenPieces (ps : List PathPiece) : List PathSeg :=
  ps.flatMap (fun p => PathSeg.field p.name :: p.idxs.map PathSeg.idx)

/-- Modelled from the spec: resolution of a segment list against a document —
`some v` when the document has the exact nested shape addressed by the
expression, `none` (absent) on any mismatch. -/
def specResolve : JSValue → List PathSeg → Option JSValue
  | cur, [] => some cur
  | cur, PathSeg.field k :: rest =>
      match cur with
      | vobj fields =>
          match fields.find? (fun f => f.1 = k) with
          | some f => specResolve f.2 rest
          | none => none
      | _ => none
  | cur, PathSeg.idx i :: rest =>
      match cur with
      | varr xs =>
          match xs.get? i with
          | some v => specResolve v rest
          | none => none
      | _ => none

/-!
## Numeric parsing (`parseFloat`)

JavaScript `parseFloat`: skip leading whitespace, then parse the longest
prefix of the form `[+-]? digits [. digits] [(e|E) [+-]? digits]`; trailing
garbage is ignored; if no digit is consumed the result is `NaN` (modelled as
`none`).  (`Infinity` literals, irrelevant to every claim here, are also
mapped to `none`.) -/

/-- Decimal value of a digit list. -/
def natOfDigits (cs : List Char) : ℕ :=
  cs.foldl (fun acc c => acc * 10 + (c.toNat - 48)) 0

/-- Leading JS whitespace. -/
def isJSWhitespace (c : Char) : Bool :=
  c = ' ' || c = '\t' || c = '\n' || c = '\r'

/-- `String.prototype.trim()`: strip leading and trailing whitespace. -/
def jsTrim (s : String) : String :=
  ⟨((s.data.dropWhile isJSWhitespace).reverse.dropWhile isJSWhitespace).reverse⟩

/-- ASCII lower-casing of one character (`String.prototype.toLowerCase()`;
every string the pipeline compares after lower-casing is ASCII). -/
def jsCharToLower (c : Char) : Char :=
  if 'A' ≤ c && c ≤ 'Z' then Char.ofNat (c.toNat + 32) else c

/-- `String.prototype.toLowerCase()` for ASCII strings. -/
def jsToLower (s : String) : String :=
  ⟨s.data.map jsCharToLower⟩

/-- `parseFloat(s)`, `none` standing for `NaN`. -/
def parseFloatJS (s : String) : Option ℚ :=
  let cs := s.data.dropWhile isJSWhitespace
  let (sign, cs1) : ℚ × List Char :=
    match cs with
    | '+' :: r => (1, r)
    | '-' :: r => (-1, r)
    | _ => (1, cs)
  let intDigits := cs1.takeWhile Char.isDigit
  let rest1 := cs1.dropWhile Char.isDigit
  let (fracDigits, rest2) : List Char × List Char :=
    match rest1 with
    | '.' :: r => (r.takeWhile Char.isDigit, r.dropWhile Char.isDigit)
    | _ => ([], rest1)
  if intDigits = [] && fracDigits = [] then none
  else
    let mantissa : ℚ :=
      (natOfDigits intDigits : ℚ) + (natOfDigits fracDigits : ℚ) / ((10 : ℚ) ^ fracDigits.length)
    let withExp : ℚ :=
      match rest2 with
      | 'e' :: r => applyExp mantissa r
      | 'E' :: r => applyExp mantissa r
      | _ => mantissa
    some (sign * withExp)
where
  /-- Apply an exponent suffix; an exponent with no digits is ignored. -/
  applyExp (m : ℚ) (r : List Char) : ℚ :=
    let (eNeg, r1) : Bool × List Char :=
      match r with
      | '+' :: t => (false, t)
      | '-' :: t => (true, t)
      | _ => (false, r)
    let eDigits := r1.takeWhile Char.isDigit
    if eDigits = [] then m
    else if eNeg then m / ((10 : ℚ) ^ natOfDigits eDigits)
    else m * ((10 : ℚ) ^ natOfDigits eDigits)

/-!
## ChirpStack envelopes -/

/-- The base64 alphabet. -/
def b64Char (n : ℕ) : Char :=
  "ABCDEFGHIJKLMNOPQRSTUVWXYZabcdefghijklmnopqrstuvwxyz0123456789+/".data.getD n 'A'

/-- Standard base64 of a byte list (with `=` padding), as produced by
`Buffer.toString('base64')`. -/
def base64Bytes : List ℕ → List Char
  | [] => []
  | [b] => [b64Char (b / 4), b64Char (b % 4 * 16), '=', '=']
  | [b1, b2] => [b64Char (b1 / 4), b64Char (b1 % 4 * 16 + b2 / 16), b64Char (b2 % 16 * 4), '=']
  | b1 :: b2 :: b3 :: rest =>
      b64Char (b1 / 4) :: b64Char (b1 % 4 * 16 + b2 / 16) ::
      b64Char (b2 % 16 * 4 + b3 / 64) :: b64Char (b3 % 64) :: base64Bytes rest

/-- `Buffer.from(s).toString('base64')` for ASCII strings (every payload the
encoder produces here is `'0'`, `'1'`, `'auto'` or `'manual'`). -/
def base64EncodeAscii (s : String) : String :=
  ⟨base64Bytes (s.data.map Char.toNat)⟩

/-- `createChirpStackSendPayload(data, confirmed = true, fPort = 1)`.  The
source builds the JSON text `JSON.stringify({confirmed, data: base64, fPort})`;
we represent the payload by the JSON value that text parses back to (the
ingestion side always begins with `JSON.parse`). -/
def createChirpStackSendPayload (data : String) (confirmed : Bool := true)
    (fPort : ℚ := 1) : JSValue :=
  vobj [("confirmed", vbool confirmed),
        ("data", vstr (base64EncodeAscii data)),
        ("fPort", vnum fPort)]

/-- `isChirpStackReceiveFormat(jsonData)`. -/
def isChirpStackReceiveFormat (jsonData : JSValue) : Bool :=
  truthy jsonData && hasOwnKey jsonData "applicationID" && hasOwnKey jsonData "deviceName" &&
    hasOwnKey jsonData "devEUI" && hasOwnKey jsonData "object"

/-- `isChirpStackSendFormat(jsonData)`. -/
def isChirpStackSendFormat (jsonData : JSValue) : Bool :=
  truthy jsonData && hasOwnKey jsonData "confirmed" && hasOwnKey jsonData "data" &&
    hasOwnKey jsonData "fPort"

/-!
## Entities, history, alerts -/

/-- One point of an entity's bounded time series (`{timestamp, value}` for
sensors, `{timestamp, level}` for reservoirs — the reservoir handler stores
its clamped level in the value role; `receivedTimestamp` is attached only
when the entity displays reception times). -/
structure HistoryEntry : Type where
  timestamp : ℤ
  value : ℚ
  receivedTimestamp : Option ℤ
  deriving Repr, DecidableEq

/-- An `io.emit('alert', …)` event. -/
structure AlertEvent : Type where
  alertType : String
  subject : String
  value : ℚ
  threshold : ℚ
  deriving Repr, DecidableEq

/-- A sensor record of `stationData.sensors`. -/
structure Sensor : Type where
  id : String
  name : String
  topic : String
  unit : String
  minValue : Option ℚ
  maxValue : Option ℚ
  value : ℚ
  status : String
  lastUpdate : ℤ
  receivedTimestamp : Option ℤ
  isJsonPayload : Bool
  jsonPath : List PathPiece
  jsonFormat : String
  showReceivedTimestamp : Bool
  mqttQos : ℕ
  deriving Repr, DecidableEq

/-- A reservoir record of `stationData.reservoirs` (`topic` is the level
topic; the three command topics are optional). -/
structure Reservoir : Type where
  id : String
  name : String
  topic : String
  pumpTopic : Option String
  fillTopic : Option String
  modeTopic : Option String
  capacity : ℚ
  lowThreshold : ℚ
  currentLevel : ℚ
  pumpStatus : Bool
  isAutoMode : Bool
  lastUpdate : ℤ
  receivedTimestamp : Option ℤ
  showReceivedTimestamp : Bool
  isJsonPayloadLevel : Bool
  jsonPathLevel : List PathPiece
  jsonFormatLevel : String
  mqttQosLevel : ℕ
  isJsonPayloadPump : Bool
  jsonPathPump : List PathPiece
  jsonFormatPump : String
  mqttQosPump : ℕ
  isJsonPayloadFill : Bool
  jsonPathFill : List PathPiece
  jsonFormatFill : String
  mqttQosFill : ℕ
  isJsonPayloadMode : Bool
  jsonPathMode : List PathPiece
  jsonFormatMode : String
  mqttQosMode : ℕ
  deriving Repr, DecidableEq

/-- An inbound MQTT message: the raw text `message.toString()` together with
the result of `JSON.parse` on it (`none` when parsing throws). -/
structure Msg : Type where
  raw : String
  parsed : Option JSValue
  deriving Repr

/-- The global station state (`stationData`): the entity lists plus the two
per-entity history tables, keyed by entity id. -/
structure StationState : Type where
  sensors : List Sensor
  reservoirs : List Reservoir
  sensorHistory : List (String × List HistoryEntry)
  reservoirHistory : List (String × List HistoryEntry)
  deriving DecidableEq

/-- Table lookup; a missing id reads as the empty series (the handlers
initialise `history[id] = []` before pushing). -/
def histGet (tbl : List (String × List HistoryEntry)) (id : String) : List HistoryEntry :=
  match tbl.find? (fun e => e.1 = id) with
  | some e => e.2
  | none => []

/-- Table update (replace the binding, or append a fresh one). -/
def histSet (tbl : List (String × List HistoryEntry)) (id : String)
    (h : List HistoryEntry) : List (String × List HistoryEntry) :=
  match tbl with
  | [] => [(id, h)]
  | e :: rest => if e.1 = id then (id, h) :: rest else e :: histSet rest id h

/-- `history.push(entry); if (history.length > 1000) history.shift();` —
the bounded append shared by the sensor and reservoir handlers. -/
def pushBounded (h : List HistoryEntry) (e : HistoryEntry) : List HistoryEntry :=
  let h2 := h ++ [e]
  if h2.length > 1000 then h2.tail else h2

/-- `handleSensorData(sensor, value, receivedTimestamp)`: updates the sensor,
evaluates the thresholds (min before max, at most one alert), appends a
bounded history point.  `now` stands for the `new Date()` calls; the function
returns the updated sensor, its updated history and the emitted alerts.
(The source first writes `status = 'online'` and then overwrites it with
`'warning'` inside a breached branch; the net field values are built here in
one record.) -/
def handleSensorData (sensor : Sensor) (hist : List HistoryEntry) (value : ℚ)
    (now : ℤ) (receivedTimestamp : Option ℤ) : Sensor × List HistoryEntry × List AlertEvent :=
  let minBreach : Bool :=
    match sensor.minValue with
    | some m => decide (value < m)
    | none => false
  let maxBreach : Bool :=
    match sensor.maxValue with
    | some m => decide (value > m)
    | none => false
  let status : String := if minBreach then "warning" else if maxBreach then "warning" else "online"
  let alerts : List AlertEvent :=
    if minBreach then [⟨"low_threshold", sensor.name, value, sensor.minValue.getD 0⟩]
    else if maxBreach then [⟨"high_threshold", sensor.name, value, sensor.maxValue.getD 0⟩]
    else []
  let recv' : Option ℤ :=
    if receivedTimestamp.isSome && sensor.showReceivedTimestamp then receivedTimestamp
    else sensor.receivedTimestamp
  let s' : Sensor :=
    { sensor with value := value, lastUpdate := now, status := status, receivedTimestamp := recv' }
  let entry : HistoryEntry :=
    ⟨now, value,
     if receivedTimestamp.isSome && sensor.showReceivedTimestamp then receivedTimestamp
     else none⟩
  (s', pushBounded hist entry, alerts)

/-- `handleReservoirLevelData(reservoir, level, receivedTimestamp)`: clamps
the level to `[0, 100]`, raises the low-level alert when the clamped level is
at most `lowThreshold`, appends a bounded history point. -/
def handleReservoirLevelData (reservoir : Reservoir) (hist : List HistoryEntry)
    (level : ℚ) (now : ℤ) (receivedTimestamp : Option ℤ) :
    Reservoir × List HistoryEntry × List AlertEvent :=
  let clamped : ℚ := max 0 (min 100 level)
  let recv' : Option ℤ :=
    if receivedTimestamp.isSome && reservoir.showReceivedTimestamp then receivedTimestamp
    else reservoir.receivedTimestamp
  let r' : Reservoir :=
    { reservoir with currentLevel := clamped, lastUpdate := now, receivedTimestamp := recv' }
  let alerts : List AlertEvent :=
    if clamped ≤ reservoir.lowThreshold then
      [⟨"low_level", reservoir.name, clamped, reservoir.lowThreshold⟩]
    else []
  let entry : HistoryEntry :=
    ⟨now, clamped,
     if receivedTimestamp.isSome && reservoir.showReceivedTimestamp then receivedTimestamp
     else none⟩
  (r', pushBounded hist entry, alerts)

/-- `handleReservoirPumpData(reservoir, pumpStatus, receivedTimestamp)`. -/
def handleReservoirPumpData (reservoir : Reservoir) (pumpStatus : Bool) (now : ℤ)
    (receivedTimestamp : Option ℤ) : Reservoir :=
  { reservoir with
      pumpStatus := pumpStatus
      lastUpdate := now
      receivedTimestamp :=
        if receivedTimestamp.isSome && reservoir.showReceivedTimestamp then receivedTimestamp
        else reservoir.receivedTimestamp }

/-- `handleReservoirModeData(reservoir, isAutoMode, receivedTimestamp)`. -/
def handleReservoirModeData (reservoir : Reservoir) (isAutoMode : Bool) (now : ℤ)
    (receivedTimestamp : Option ℤ) : Reservoir :=
  { reservoir with
      isAutoMode := isAutoMode
      lastUpdate := now
      receivedTimestamp :=
        if receivedTimestamp.isSome && reservoir.showReceivedTimestamp then receivedTimestamp
        else reservoir.receivedTimestamp }

/-- The per-channel configuration rows of `handleReservoirTopicMessage`'s
`topicConfig` table (the table has entries for `level`, `pump` and `mode`
only — in particular none for `fill`). -/
def reservoirTopicConfig (r : Reservoir) : String → Option (Bool × List PathPiece × String)
  | "level" => some (r.isJsonPayloadLevel, r.jsonPathLevel, r.jsonFormatLevel)
  | "pump" => some (r.isJsonPayloadPump, r.jsonPathPump, r.jsonFormatPump)
  | "mode" => some (r.isJsonPayloadMode, r.jsonPathMode, r.jsonFormatMode)
  | _ => none

/-- The pump-state coercion of the `case 'pump'` branch: strings compare
against `'1'` and (lower-cased) `'true'`, numbers against `1`, anything else
goes through `Boolean(…)`. -/
def pumpCoerce : JSValue → Bool
  | vstr s => s = "1" || jsToLower s = "true"
  | vnum q => decide (q = 1)
  | v => truthy v

/-- `handleReservoirTopicMessage(reservoir, messageStr, topicType,
receivedTimestamp)`.  Returns `none` when the message changes nothing (no
config row, JSON parse error, extraction miss, or non-numeric level);
otherwise the updated reservoir, updated level history and emitted alerts.
The format auto-detection of the source (`isChirpStackReceiveFormat` /
`isChirpStackSendFormat`) computes `actualFormat` but never uses it, so it
has no observable effect and is not repeated here. -/
def handleReservoirTopicMessage (r : Reservoir) (msg : Msg) (topicType : String)
    (now : ℤ) (hist : List HistoryEntry) :
    Option (Reservoir × List HistoryEntry × List AlertEvent) :=
  match reservoirTopicConfig r topicType with
  | none => none
  | some (isJson, jsonPath, _jsonFormat) =>
    let extracted? : Option JSValue :=
      if isJson then
        match msg.parsed with
        | none => none  -- JSON.parse threw: catch, return
        | some jsonData =>
            let ev := extractValueFromJSON jsonData jsonPath
            match ev with
            | vnull => none   -- extraction miss: return
            | vundef => none
            | v => some v
      else some (vstr (jsTrim msg.raw))
    match extracted? with
    | none => none
    | some ev =>
      match topicType with
      | "level" =>
          -- const levelValue = parseFloat(extractedValue)
          let level? : Option ℚ :=
            match ev with
            | vnum q => some q
            | vstr s => parseFloatJS s
            | _ => none
          match level? with
          | some levelValue => some (handleReservoirLevelData r hist levelValue now (some now))
          | none => none
      | "pump" => some (handleReservoirPumpData r (pumpCoerce ev) now (some now), hist, [])
      | "mode" =>
          -- strict equality `extractedValue === 'auto' || === 'automatic'`:
          -- only string values can match
          let isAutoMode : Bool :=
            match ev with
            | vstr s => s = "auto" || s = "automatic"
            | _ => false
          some (handleReservoirModeData r isAutoMode now (some now), hist, [])
      | _ => none

/-- The per-sensor body of the `relatedSensors.forEach` in the
`mqttClient.on('message')` handler: JSON or raw normalization, then
`handleSensorData`.  `none` means the message was dropped for this sensor
(parse error, extraction miss, or non-numeric value). -/
def processSensorMessage (sensor : Sensor) (msg : Msg) (hist : List HistoryEntry)
    (now : ℤ) : Option (Sensor × List HistoryEntry × List AlertEvent) :=
  let value? : Option ℚ :=
    if sensor.isJsonPayload then
      match msg.parsed with
      | none => none  -- JSON.parse threw: catch, return
      | some jsonData =>
          -- the computed actualFormat (auto-detection) is never used downstream
          let ev := extractValueFromJSON jsonData sensor.jsonPath
          match ev with
          | vnull => none
          | vundef => none
          | vstr s =>
              -- strings are re-parsed; a non-numeric string stays a string
              -- and is then rejected by the `typeof !== 'number'` check
              match parseFloatJS s with
              | some q => some q
              | none => none
          | vnum q => some q
          | _ => none  -- still not a number
    else
      parseFloatJS msg.raw
  match value? with
  | some v => some (handleSensorData sensor hist v now (some now))
  | none => none

/-- Events accumulated while routing one message. -/
structure RouteResult : Type where
  state : StationState
  alerts : List AlertEvent

/-- One sensor of the `relatedSensors.forEach`: a matching sensor is
processed in place (a dropped message leaves it untouched); the accumulator
carries the rebuilt sensor list, the history table and the emitted alerts. -/
def sensorRouteStep (topic : String) (msg : Msg) (now : ℤ)
    (acc : List Sensor × List (String × List HistoryEntry) × List AlertEvent)
    (s : Sensor) : List Sensor × List (String × List HistoryEntry) × List AlertEvent :=
  if s.topic = topic then
    match processSensorMessage s msg (histGet acc.2.1 s.id) now with
    | some (s', h', as) => (acc.1 ++ [s'], histSet acc.2.1 s.id h', acc.2.2 ++ as)
    | none => (acc.1 ++ [s], acc.2.1, acc.2.2)
  else (acc.1 ++ [s], acc.2.1, acc.2.2)

/-- The sensor half of the message handler. -/
def routeToSensors (st : StationState) (topic : String) (msg : Msg) (now : ℤ) : RouteResult :=
  let r := st.sensors.foldl (sensorRouteStep topic msg now) ([], st.sensorHistory, [])
  ⟨{ st with sensors := r.1, sensorHistory := r.2.1 }, r.2.2⟩

/-- The channel selected for a reservoir by the `if`/`else if` chain of the
`relatedReservoirs.forEach` body: the level topic is tried first, then the
pump topic, then the mode topic; a fill-topic match selects nothing. -/
def reservoirChannelFor (r : Reservoir) (topic : String) : Option String :=
  if r.topic = topic then some "level"
  else if r.pumpTopic = some topic then some "pump"
  else if r.modeTopic = some topic then some "mode"
  else none

/-- One reservoir of the `relatedReservoirs.forEach`: the reservoir is
processed on its selected channel (a reservoir matched only through its fill
topic selects no channel and is left untouched). -/
def reservoirRouteStep (topic : String) (msg : Msg) (now : ℤ)
    (acc : List Reservoir × List (String × List HistoryEntry) × List AlertEvent)
    (r : Reservoir) : List Reservoir × List (String × List HistoryEntry) × List AlertEvent :=
  match reservoirChannelFor r topic with
  | some chan =>
      match handleReservoirTopicMessage r msg chan now (histGet acc.2.1 r.id) with
      | some (r', h', as) => (acc.1 ++ [r'], histSet acc.2.1 r.id h', acc.2.2 ++ as)
      | none => (acc.1 ++ [r], acc.2.1, acc.2.2)
  | none => (acc.1 ++ [r], acc.2.1, acc.2.2)

/-- The reservoir half of the message handler. -/
def routeToReservoirs (st : StationState) (topic : String) (msg : Msg) (now : ℤ) : RouteResult :=
  let r := st.reservoirs.foldl (reservoirRouteStep topic msg now) ([], st.reservoirHistory, [])
  ⟨{ st with reservoirs := r.1, reservoirHistory := r.2.1 }, r.2.2⟩

/-- The `mqttClient.on('message')` dispatcher: if any sensor's topic equals
the message topic, only the sensors are processed (the handler returns);
otherwise, if any reservoir topic (level, pump, fill or mode) matches, the
reservoirs are processed; otherwise nothing changes. -/
def processMessage (st : StationState) (topic : String) (msg : Msg) (now : ℤ) : RouteResult :=
  let relatedSensors := st.sensors.filter (fun s => s.topic = topic)
  if relatedSensors.length > 0 then
    routeToSensors st topic msg now
  else
    let relatedReservoirs := st.reservoirs.filter (fun r =>
      r.topic = topic || r.pumpTopic = some topic || r.fillTopic = some topic ||
        r.modeTopic = some topic)
    if relatedReservoirs.length > 0 then
      routeToReservoirs st topic msg now
    else ⟨st, []⟩

/-!
## History queries (`filterHistoryByPeriod`) -/

/-- The lookback window start: `now` minus the period's length in
milliseconds (unknown periods default to one hour, as in the source's
`default:` branch). -/
def periodStartTime (now : ℤ) (period : String) : ℤ :=
  now -
    (match period with
     | "10m" => 10 * 60 * 1000
     | "1h" => 60 * 60 * 1000
     | "6h" => 6 * 60 * 60 * 1000
     | "24h" => 24 * 60 * 60 * 1000
     | "7d" => 7 * 24 * 60 * 60 * 1000
     | "30d" => 30 * 24 * 60 * 60 * 1000
     | _ => 60 * 60 * 1000)

/-- JavaScript `Array.prototype.filter` with the element index, specialised
to an index predicate (the decimation `filter((_, index) => index % step === 0)`). -/
def filterIdx {α : Type} (p : ℕ → Bool) : ℕ → List α → List α
  | _, [] => []
  | i, x :: xs => if p i then x :: filterIdx p (i + 1) xs else filterIdx p (i + 1) xs

/-- One row of the chart data returned by `filterHistoryByPeriod`
(`formattedTime`, a locale-rendered display string, is presentation only and
not modelled). -/
structure ChartPoint : Type where
  timestamp : ℤ
  value : ℚ
  receivedTimestamp : Option ℤ
  deriving Repr, DecidableEq

/-- `filterHistoryByPeriod(history, period, maxPoints)`: keep the records
with `timestamp ≥ now − window`, then, when more than `maxPoints` remain,
keep every `step`-th record with `step = Math.ceil(length / maxPoints)`.
When `maxPoints = 0`, `Math.ceil(length / 0)` is `Infinity` and
`index % Infinity === 0` only at index `0`, so exactly the first record is
kept. -/
def filterHistoryByPeriod (history : List HistoryEntry) (period : String)
    (maxPoints : ℕ) (now : ℤ) : List ChartPoint :=
  let startTime := periodStartTime now period
  let filteredData := history.filter (fun rec => decide (startTime ≤ rec.timestamp))
  let decimated :=
    if filteredData.length > maxPoints then
      if maxPoints = 0 then filteredData.take 1
      else
        let step := (filteredData.length + maxPoints - 1) / maxPoints
        filterIdx (fun index => decide (index % step = 0)) 0 filteredData
    else filteredData
  decimated.map (fun rec => ⟨rec.timestamp, rec.value, rec.receivedTimestamp⟩)

/-!
## Sensor registration (`POST /api/sensors`) -/

/-- The request body of `POST /api/sensors`; `none` stands for a field the
caller did not supply (`undefined`). -/
structure SensorBody : Type where
  name : String
  topic : String
  unit : String
  minValue : Option ℚ
  maxValue : Option ℚ
  value : Option ℚ
  status : Option String
  isJsonPayload : Option Bool
  jsonPath : Option (List PathPiece)
  jsonFormat : Option String
  showReceivedTimestamp : Option Bool
  mqttQos : Option ℕ
  deriving Repr

/-- The sensor object built by `POST /api/sensors`: the body is spread first
and the fixed initial state (`value: 0`, `status: 'offline'`,
`lastUpdate: new Date()`, `receivedTimestamp: null`) plus the `||`-style
defaults are written on top of it.  `idStr` is `Date.now().toString()`. -/
def createSensor (body : SensorBody) (idStr : String) (now : ℤ) : Sensor :=
  { id := idStr
    name := body.name
    topic := body.topic
    unit := body.unit
    minValue := body.minValue
    maxValue := body.maxValue
    value := 0
    status := "offline"
    lastUpdate := now
    receivedTimestamp := none
    isJsonPayload :=
      match body.isJsonPayload with
      | some b => b          -- `x || false` is `x` for a supplied boolean
      | none => false
    jsonPath :=
      match body.jsonPath with
      | some p => p          -- `x || ''`
      | none => []
    jsonFormat :=
      match body.jsonFormat with
      | some s => if s = "" then "chirpstack_receive" else s  -- `x || 'chirpstack_receive'`
      | none => "chirpstack_receive"
    showReceivedTimestamp :=
      match body.showReceivedTimestamp with
      | some b => b
      | none => false
    mqttQos :=
      match body.mqttQos with
      | some q => if q = 0 then 1 else q  -- `x || 1` (0 is falsy)
      | none => 1 }

/-- The `POST /api/sensors` route: optional JSONPath validation (a 400
response is `none`), then the new sensor is appended and its history slot is
initialised to `[]` when absent. -/
def createSensorRoute (st : StationState) (body : SensorBody) (idStr : String)
    (now : ℤ) : Option (StationState × Sensor) :=
  let pathToValidate : List PathPiece :=
    match body.jsonPath with
    | some p => p
    | none => []
  if body.isJsonPayload = some true && pathToValidate ≠ [] &&
      !validPathPieces pathToValidate then
    none
  else
    let sensor := createSensor body idStr now
    let hist' :=
      match st.sensorHistory.find? (fun e => e.1 = sensor.id) with
      | some _ => st.sensorHistory
      | none => histSet st.sensorHistory sensor.id []
    some ({ st with sensors := st.sensors ++ [sensor], sensorHistory := hist' }, sensor)

/-!
## Helper lemmas -/

/-- Appending under the 1000-point cap is a plain append. -/
theorem pushBounded_below_cap (h : List HistoryEntry) (e : HistoryEntry)
    (hl : h.length < 1000) : pushBounded h e = h ++ [e] := by
  simp only [pushBounded]
  rw [if_neg (by simp only [List.length_append, List.length_singleton]; omega)]

/-- Appending at the cap drops exactly the oldest point. -/
theorem pushBounded_at_cap (h : List HistoryEntry) (e : HistoryEntry)
    (hl : h.length = 1000) : pushBounded h e = h.drop 1 ++ [e] := by
  cases h with
  | nil => simp at hl
  | cons x t =>
      simp only [pushBounded, List.cons_append, List.length_cons, List.length_append]
      rw [if_pos (by simp at hl ⊢; omega)]
      rfl

/-- The bounded push never leaves more than 1000 points. -/
theorem pushBounded_length_le (h : List HistoryEntry) (e : HistoryEntry)
    (hl : h.length ≤ 1000) : (pushBounded h e).length ≤ 1000 := by
  rcases lt_or_eq_of_le hl with hlt | heq
  · rw [pushBounded_below_cap h e hlt]
    simp only [List.length_append, List.length_singleton]
    omega
  · rw [pushBounded_at_cap h e heq]
    simp only [List.length_append, List.length_singleton, List.length_drop]
    omega

/-- Bound propagation of the bounded push through a whole ingestion
sequence. -/
theorem foldl_pushBounded_le (es : List HistoryEntry) :
    ∀ acc : List HistoryEntry, acc.length ≤ 1000 →
      (es.foldl pushBounded acc).length ≤ 1000 := by
  induction es with
  | nil => simpa using fun _ h => h
  | cons e es ih =>
      intro acc h
      exact ih _ (pushBounded_length_le _ _ h)

/-!
## Example entities used by the witnesses -/

/-- A raw-payload sensor with thresholds `min = 5`, `max = 38` (the worked
example of the spec). -/
def sensorEx : Sensor :=
  { id := "100", name := "temp", topic := "agriculture/temp", unit := "C",
    minValue := some 5, maxValue := some 38, value := 0, status := "offline",
    lastUpdate := 0, receivedTimestamp := none, isJsonPayload := false,
    jsonPath := [], jsonFormat := "chirpstack_receive",
    showReceivedTimestamp := false, mqttQos := 1 }

/-- A reservoir with `lowThreshold = 25` (the worked example of the spec),
raw level topic, raw pump topic, and a fill topic. -/
def reservoirEx : Reservoir :=
  { id := "200", name := "res", topic := "agriculture/level",
    pumpTopic := some "agriculture/pump", fillTopic := some "agriculture/fill",
    modeTopic := some "agriculture/mode", capacity := 1000, lowThreshold := 25,
    currentLevel := 50, pumpStatus := false, isAutoMode := true, lastUpdate := 0,
    receivedTimestamp := none, showReceivedTimestamp := false,
    isJsonPayloadLevel := false, jsonPathLevel := [], jsonFormatLevel := "chirpstack_receive",
    mqttQosLevel := 1,
    isJsonPayloadPump := false, jsonPathPump := [], jsonFormatPump := "chirpstack_send",
    mqttQosPump := 1,
    isJsonPayloadFill := false, jsonPathFill := [], jsonFormatFill := "chirpstack_send",
    mqttQosFill := 1,
    isJsonPayloadMode := false, jsonPathMode := [], jsonFormatMode := "chirpstack_send",
    mqttQosMode := 1 }

/-!
## Claim theorems -/

/-- Claim C3: sensor ingestion of a normalized numeric value sets the value,
the update time, and status `online`; when the min threshold is configured
and breached the status is `warning` and exactly one low-threshold alert
(carrying the value and the bound) is emitted; otherwise a configured and
breached max threshold gives `warning` with exactly one high-threshold
alert; an in-bounds value keeps status `online` and emits nothing; never
more than one alert per ingestion. -/
theorem c3_sensor_ingestion_thresholds (s : Sensor) (hist : List HistoryEntry)
    (v : ℚ) (now : ℤ) (recv : Option ℤ) :
    (handleSensorData s hist v now recv).1.value = v ∧
    (handleSensorData s hist v now recv).1.lastUpdate = now ∧
    (∀ m, s.minValue = some m → v < m →
      (handleSensorData s hist v now recv).1.status = "warning" ∧
      (handleSensorData s hist v now recv).2.2 = [⟨"low_threshold", s.name, v, m⟩]) ∧
    (∀ M, (¬ ∃ m, s.minValue = some m ∧ v < m) → s.maxValue = some M → v > M →
      (handleSensorData s hist v now recv).1.status = "warning" ∧
      (handleSensorData s hist v now recv).2.2 = [⟨"high_threshold", s.name, v, M⟩]) ∧
    ((¬ ∃ m, s.minValue = some m ∧ v < m) → (¬ ∃ M, s.maxValue = some M ∧ v > M) →
      (handleSensorData s hist v now recv).1.status = "online" ∧
      (handleSensorData s hist v now recv).2.2 = []) ∧
    (handleSensorData s hist v now recv).2.2.length ≤ 1 := by
  rcases hmin : s.minValue with _ | m <;> rcases hmax : s.maxValue with _ | M
  · simp [handleSensorData, hmin, hmax]
  · by_cases hM : M < v <;> simp_all [handleSensorData, hmin, hmax] <;>
      (try (split <;> simp_all <;> try linarith))
  · by_cases hm : v < m <;> simp_all [handleSensorData, hmin, hmax] <;>
      (try (split <;> simp_all <;> try linarith))
  · by_cases hm : v < m <;> by_cases hM : M < v <;> simp_all [handleSensorData, hmin, hmax] <;>
      (try (split <;> simp_all <;> try linarith)) <;>
      (try (split <;> simp_all <;> try linarith))

/-- Witness for C3: the spec's worked example — a sensor with `min = 5`
ingesting `3` goes to `warning` with the single low-threshold alert. -/
theorem c3_sensor_ingestion_thresholds_witness :
    (handleSensorData sensorEx [] 3 0 (some 0)).1.status = "warning" ∧
    (handleSensorData sensorEx [] 3 0 (some 0)).2.2 =
      [⟨"low_threshold", "temp", 3, 5⟩] :=
  (c3_sensor_ingestion_thresholds sensorEx [] 3 0 (some 0)).2.2.1 5 rfl (by norm_num)

/-- Claim C4: reservoir level ingestion stores the level clamped to
`[0, 100]` (over-range stores 100, under-range stores 0), sets the update
time, and emits the low-level alert — carrying the clamped level and the
threshold — exactly when the clamped level is at most the configured
`lowThreshold`. -/
theorem c4_reservoir_level_clamp_alert (r : Reservoir) (hist : List HistoryEntry)
    (v : ℚ) (now : ℤ) (recv : Option ℤ) :
    (0 ≤ (handleReservoirLevelData r hist v now recv).1.currentLevel ∧
      (handleReservoirLevelData r hist v now recv).1.currentLevel ≤ 100) ∧
    (0 ≤ v → v ≤ 100 → (handleReservoirLevelData r hist v now recv).1.currentLevel = v) ∧
    (100 < v → (handleReservoirLevelData r hist v now recv).1.currentLevel = 100) ∧
    (v < 0 → (handleReservoirLevelData r hist v now recv).1.currentLevel = 0) ∧
    (handleReservoirLevelData r hist v now recv).1.lastUpdate = now ∧
    ((handleReservoirLevelData r hist v now recv).1.currentLevel ≤ r.lowThreshold →
      (handleReservoirLevelData r hist v now recv).2.2 =
        [⟨"low_level", r.name, (handleReservoirLevelData r hist v now recv).1.currentLevel,
          r.lowThreshold⟩]) ∧
    (r.lowThreshold < (handleReservoirLevelData r hist v now recv).1.currentLevel →
      (handleReservoirLevelData r hist v now recv).2.2 = []) := by
  simp only [handleReservoirLevelData]
  refine ⟨⟨le_max_left _ _, max_le (by norm_num) (min_le_left _ _)⟩, ?_, ?_, ?_, by simp, ?_, ?_⟩
  · intro h0 h100
    simp [max_eq_right, min_eq_right, h0, h100]
  · intro h
    simp only [min_eq_left (le_of_lt h)]
    exact max_eq_right (by norm_num)
  · intro h
    have : min 100 v = v := min_eq_right (by linarith)
    rw [this]
    exact max_eq_left (le_of_lt h)
  · intro h
    simp only [if_pos h]
  · intro h
    simp only [if_neg (not_le.mpr h)]

/-- Witness for C4: the spec's worked example — levels 130, −10 and 20
against `lowThreshold = 25`. -/
theorem c4_reservoir_level_clamp_alert_witness :
    (handleReservoirLevelData reservoirEx [] 130 0 (some 0)).1.currentLevel = 100 ∧
    (handleReservoirLevelData reservoirEx [] (-10) 0 (some 0)).1.currentLevel = 0 ∧
    (handleReservoirLevelData reservoirEx [] 20 0 (some 0)).2.2 = [⟨"low_level", "res", 20, 25⟩] := by
  refine ⟨(c4_reservoir_level_clamp_alert reservoirEx [] 130 0 (some 0)).2.2.1 (by norm_num), 
    (c4_reservoir_level_clamp_alert reservoirEx [] (-10) 0 (some 0)).2.2.2.1 (by norm_num), ?_⟩
  have h20 : (handleReservoirLevelData reservoirEx [] 20 0 (some 0)).1.currentLevel = 20 :=
    (c4_reservoir_level_clamp_alert reservoirEx [] 20 0 (some 0)).2.1 (by norm_num) (by norm_num)
  have := (c4_reservoir_level_clamp_alert reservoirEx [] 20 0 (some 0)).2.2.2.2.2.1
    (by rw [h20]; norm_num [reservoirEx])
  rw [h20] at this
  simpa [reservoirEx] using this

/-- Claim C5: per-entity histories never exceed 1000 points — both ingestion
handlers preserve the bound, and any ingestion sequence starting from an
empty series stays within it; an append at capacity evicts exactly the
single oldest point and keeps every newer point in order, while below
capacity it is a plain append. -/
theorem c5_history_capacity_fifo (hist histR : List HistoryEntry)
    (s : Sensor) (r : Reservoir) (v lv : ℚ) (now : ℤ) (recv : Option ℤ) :
    (hist.length ≤ 1000 → (handleSensorData s hist v now recv).2.1.length ≤ 1000) ∧
    (histR.length ≤ 1000 → (handleReservoirLevelData r histR lv now recv).2.1.length ≤ 1000) ∧
    (∀ es : List HistoryEntry, (es.foldl pushBounded []).length ≤ 1000) ∧
    (∀ e : HistoryEntry, hist.length = 1000 → pushBounded hist e = hist.drop 1 ++ [e]) ∧
    (∀ e : HistoryEntry, hist.length < 1000 → pushBounded hist e = hist ++ [e]) := by
  refine ⟨?_, ?_, ?_, ?_, ?_⟩
  · intro h
    simp only [handleSensorData]
    exact pushBounded_length_le _ _ h
  · intro h
    simp only [handleReservoirLevelData]
    exact pushBounded_length_le _ _ h
  · intro es
    exact foldl_pushBounded_le es [] (by simp)
  · intro e h
    exact pushBounded_at_cap hist e h
  · intro e h
    exact pushBounded_below_cap hist e h

/-- Witness for C5: a singleton history stays within the cap after a sensor
ingestion, and an append below capacity is a plain append. -/
theorem c5_history_capacity_fifo_witness :
    (handleSensorData sensorEx [⟨0, 1, none⟩] 3 0 (some 0)).2.1.length ≤ 1000 ∧
    pushBounded [⟨0, 1, none⟩] ⟨1, 2, none⟩ = [⟨0, 1, none⟩, ⟨1, 2, none⟩] := by
  refine ⟨(c5_history_capacity_fifo [⟨0, 1, none⟩] [] sensorEx reservoirEx 3 3 0 (some 0)).1
      (by simp), ?_⟩
  have := (c5_history_capacity_fifo [⟨0, 1, none⟩] [] sensorEx reservoirEx 3 3 0
      (some 0)).2.2.2.2 ⟨1, 2, none⟩ (by simp)
  simpa using this

/-- Reading back a freshly written history slot. -/
theorem histGet_histSet (tbl : List (String × List HistoryEntry)) (id : String)
    (h : List HistoryEntry) : histGet (histSet tbl id h) id = h := by
  induction tbl with
  | nil => simp [histGet, histSet]
  | cons e rest ih =>
      simp only [histSet]
      split
      · simp [histGet]
      · simp_all [histGet, List.find?_cons]

/-- Every state change of a sensor during message processing goes through
`handleSensorData` at the message arrival time (otherwise the message is
dropped and nothing changes). -/
theorem processSensorMessage_shape (s : Sensor) (msg : Msg) (h : List HistoryEntry)
    (now : ℤ) :
    processSensorMessage s msg h now = none ∨
    ∃ v, processSensorMessage s msg h now =
      some (handleSensorData s h v now (some now)) := by
  simp only [processSensorMessage]
  split
  · right
    exact ⟨_, rfl⟩
  · left
    rfl

/-- Claim C10: a sensor created through `POST /api/sensors` starts with
`value = 0`, `status = 'offline'`, no reception timestamp and (for a fresh
id) an empty history series; fields the caller did not supply default to
`isJsonPayload = false`, `jsonFormat = 'chirpstack_receive'` and `QoS = 1`;
and this state can only change through a successful ingestion
(`handleSensorData`). -/
theorem c10_sensor_creation_defaults (body : SensorBody) (idStr : String) (now : ℤ)
    (st : StationState) :
    (createSensor body idStr now).value = 0 ∧
    (createSensor body idStr now).status = "offline" ∧
    (createSensor body idStr now).receivedTimestamp = none ∧
    (body.isJsonPayload = none → (createSensor body idStr now).isJsonPayload = false) ∧
    (body.jsonFormat = none → (createSensor body idStr now).jsonFormat = "chirpstack_receive") ∧
    (body.mqttQos = none → (createSensor body idStr now).mqttQos = 1) ∧
    (st.sensorHistory.find? (fun e => e.1 = idStr) = none →
      ∀ st' sensor, createSensorRoute st body idStr now = some (st', sensor) →
        histGet st'.sensorHistory sensor.id = []) ∧
    (∀ (msg : Msg) (h : List HistoryEntry) (now' : ℤ),
      processSensorMessage (createSensor body idStr now) msg h now' = none ∨
      ∃ v, processSensorMessage (createSensor body idStr now) msg h now' =
        some (handleSensorData (createSensor body idStr now) h v now' (some now'))) := by
  refine ⟨rfl, rfl, rfl, ?_, ?_, ?_, ?_, ?_⟩
  · intro hb
    simp [createSensor, hb]
  · intro hb
    simp [createSensor, hb]
  · intro hb
    simp [createSensor, hb]
  · intro hfind st' sensor hroute
    simp only [createSensorRoute] at hroute
    split at hroute
    · exact absurd hroute (by simp)
    · simp only [Option.some.injEq, Prod.mk.injEq] at hroute
      obtain ⟨hst', hsensor⟩ := hroute
      subst hst' hsensor
      simp only [createSensor, hfind]
      exact histGet_histSet st.sensorHistory idStr []
  · intro msg h now'
    exact processSensorMessage_shape _ msg h now'

/-- A request body supplying only the mandatory fields. -/
def bodyEx : SensorBody :=
  { name := "n", topic := "agriculture/new", unit := "", minValue := none,
    maxValue := none, value := none, status := none, isJsonPayload := none,
    jsonPath := none, jsonFormat := none, showReceivedTimestamp := none,
    mqttQos := none }

/-- Witness for C10: the defaulted creation at a concrete body. -/
theorem c10_sensor_creation_defaults_witness :
    (createSensor bodyEx "101" 0).value = 0 ∧
    (createSensor bodyEx "101" 0).status = "offline" ∧
    (createSensor bodyEx "101" 0).isJsonPayload = false ∧
    (createSensor bodyEx "101" 0).jsonFormat = "chirpstack_receive" ∧
    (createSensor bodyEx "101" 0).mqttQos = 1 := by
  have h := c10_sensor_creation_defaults bodyEx "101" 0
    ⟨[], [], [], []⟩
  exact ⟨h.1, h.2.1, h.2.2.2.1 rfl, h.2.2.2.2.1 rfl, h.2.2.2.2.2.1 rfl⟩

/-!
## Claim C9 (idempotence of re-ingestion) -/

/-- A station holding only the example sensor. -/
def stC9 : StationState := ⟨[sensorEx], [], [], []⟩

/-- The raw numeric payload `20` (its JSON parse is the number 20). -/
def msgC9 : Msg := ⟨"20", some (vnum 20)⟩

section
attribute [local semireducible] Rat.mul Rat.inv Rat.add Rat.sub

/-- Counterexample to claim C9 as stated: ingesting the payload `20` twice
in a row (same clock value) does not leave the state of the first ingestion
— the sensor's history has grown from one point to two, so the resulting
entity-and-history state differs. -/
theorem c9_counterexample :
    (histGet ((processMessage stC9 "agriculture/temp" msgC9 0).state).sensorHistory
        "100").length = 1 ∧
    (histGet ((processMessage (processMessage stC9 "agriculture/temp" msgC9 0).state
          "agriculture/temp" msgC9 0).state).sensorHistory "100").length = 2 ∧
    (processMessage (processMessage stC9 "agriculture/temp" msgC9 0).state
        "agriculture/temp" msgC9 0).state ≠
      (processMessage stC9 "agriculture/temp" msgC9 0).state := by
  refine ⟨by decide, by decide, by decide⟩

end

/-- Claim C9 amended: re-ingesting the same payload immediately (same clock
value) reproduces the entity record and the alerts exactly, and pump and
mode ingestions are fully idempotent; but sensor and level ingestions append
a history point on every run, so the combined entity-and-history state is
one point longer after the repeat (below capacity), not identical. -/
theorem c9_reingestion_amended (s : Sensor) (hist : List HistoryEntry) (v : ℚ)
    (now : ℤ) (recv : Option ℤ) (r : Reservoir) (histR : List HistoryEntry)
    (lv : ℚ) (b auto : Bool) :
    ((handleSensorData (handleSensorData s hist v now recv).1
        (handleSensorData s hist v now recv).2.1 v now recv).1 =
      (handleSensorData s hist v now recv).1) ∧
    ((handleSensorData (handleSensorData s hist v now recv).1
        (handleSensorData s hist v now recv).2.1 v now recv).2.2 =
      (handleSensorData s hist v now recv).2.2) ∧
    ((handleSensorData s hist v now recv).2.1.length < 1000 →
      (handleSensorData (handleSensorData s hist v now recv).1
          (handleSensorData s hist v now recv).2.1 v now recv).2.1.length =
        (handleSensorData s hist v now recv).2.1.length + 1) ∧
    ((handleReservoirLevelData (handleReservoirLevelData r histR lv now recv).1
        (handleReservoirLevelData r histR lv now recv).2.1 lv now recv).1 =
      (handleReservoirLevelData r histR lv now recv).1) ∧
    ((handleReservoirLevelData r histR lv now recv).2.1.length < 1000 →
      (handleReservoirLevelData (handleReservoirLevelData r histR lv now recv).1
          (handleReservoirLevelData r histR lv now recv).2.1 lv now recv).2.1.length =
        (handleReservoirLevelData r histR lv now recv).2.1.length + 1) ∧
    (handleReservoirPumpData (handleReservoirPumpData r b now recv) b now recv =
      handleReservoirPumpData r b now recv) ∧
    (handleReservoirModeData (handleReservoirModeData r auto now recv) auto now recv =
      handleReservoirModeData r auto now recv) := by
  refine ⟨?_, ?_, ?_, ?_, ?_, ?_, ?_⟩
  · simp only [handleSensorData]
    all_goals (split_ifs <;> simp_all)
  · simp only [handleSensorData]
    all_goals (split_ifs <;> simp_all)
  · intro h
    simp only [handleSensorData] at h ⊢
    rw [pushBounded_below_cap _ _ h]
    simp
  · simp only [handleReservoirLevelData]
    all_goals (split_ifs <;> simp_all)
  · intro h
    simp only [handleReservoirLevelData] at h ⊢
    rw [pushBounded_below_cap _ _ h]
    simp
  · simp only [handleReservoirPumpData]
    all_goals (split_ifs <;> simp_all)
  · simp only [handleReservoirModeData]
    all_goals (split_ifs <;> simp_all)

/-- Witness for the amended C9 at a concrete double ingestion. -/
theorem c9_reingestion_amended_witness :
    (handleSensorData (handleSensorData sensorEx [] 20 0 (some 0)).1
        (handleSensorData sensorEx [] 20 0 (some 0)).2.1 20 0 (some 0)).1 =
      (handleSensorData sensorEx [] 20 0 (some 0)).1 ∧
    (handleSensorData (handleSensorData sensorEx [] 20 0 (some 0)).1
        (handleSensorData sensorEx [] 20 0 (some 0)).2.1 20 0 (some 0)).2.1.length =
      (handleSensorData sensorEx [] 20 0 (some 0)).2.1.length + 1 := by
  refine ⟨(c9_reingestion_amended sensorEx [] 20 0 (some 0) reservoirEx [] 20 false false).1, ?_⟩
  exact (c9_reingestion_amended sensorEx [] 20 0 (some 0) reservoirEx [] 20 false false).2.2.1
    (by decide)

/-!
## Claim C8 (pump-value coercion) -/

/-- The example reservoir with the pump initially running and a past update
time. -/
def rC8 : Reservoir := { reservoirEx with pumpStatus := true, lastUpdate := 5 }

/-- A station holding only that reservoir. -/
def stC8 : StationState := ⟨[], [rC8], [], []⟩

/-- The non-boolean-like raw payload `abc`. -/
def msgC8 : Msg := ⟨"abc", none⟩

section
attribute [local semireducible] Rat.mul Rat.inv Rat.add Rat.sub

/-- Counterexample to claim C8 as stated: the pump-topic payload `abc` is not
in the boolean-like set, yet the message is not dropped — the reservoir's
`pumpStatus` is overwritten from `true` to `false` and `lastUpdate` moves
from 5 to the arrival time 0. -/
theorem c8_counterexample :
    rC8.pumpStatus = true ∧ rC8.lastUpdate = 5 ∧
    ((processMessage stC8 "agriculture/pump" msgC8 0).state).reservoirs.map
        Reservoir.pumpStatus = [false] ∧
    ((processMessage stC8 "agriculture/pump" msgC8 0).state).reservoirs.map
        Reservoir.lastUpdate = [0] := by
  refine ⟨rfl, rfl, by decide, by decide⟩

end

/-- Claim C8 amended: a pump-channel message whose extraction succeeds is
never dropped; the extracted value is coerced — a string switches the pump
on exactly when it is `'1'` or lower-cases to `'true'`, a number exactly
when it equals 1, anything else through JS truthiness — and `pumpStatus`
and `lastUpdate` are always (re)assigned. -/
theorem c8_pump_coercion_amended (r : Reservoir) (msg : Msg) (now : ℤ)
    (hist : List HistoryEntry) :
    (r.isJsonPayloadPump = false →
      handleReservoirTopicMessage r msg "pump" now hist =
        some (handleReservoirPumpData r
          (jsTrim msg.raw = "1" || jsToLower (jsTrim msg.raw) = "true") now (some now), hist, [])) ∧
    (∀ jsonData ev, r.isJsonPayloadPump = true → msg.parsed = some jsonData →
      extractValueFromJSON jsonData r.jsonPathPump = ev → ev ≠ vnull → ev ≠ vundef →
      handleReservoirTopicMessage r msg "pump" now hist =
        some (handleReservoirPumpData r (pumpCoerce ev) now (some now), hist, [])) ∧
    (∀ s, pumpCoerce (vstr s) = (s = "1" || jsToLower s = "true")) ∧
    (∀ q, pumpCoerce (vnum q) = decide (q = 1)) ∧
    (∀ r' : Reservoir, (handleReservoirPumpData r' (pumpCoerce (vstr "abc")) now (some now)).pumpStatus
        = false) := by
  refine ⟨?_, ?_, fun s => rfl, fun q => rfl,
    fun r' => by simp only [handleReservoirPumpData, pumpCoerce]; decide⟩
  · intro hj
    simp [handleReservoirTopicMessage, reservoirTopicConfig, hj, pumpCoerce]
  · intro jsonData ev hj hp hex hnn hnu
    simp only [handleReservoirTopicMessage, reservoirTopicConfig, hj, hp, hex]
    cases ev <;> simp_all [pumpCoerce]

/-- Witness for the amended C8: the payload `abc` assigns `pumpStatus = false`. -/
theorem c8_pump_coercion_amended_witness :
    handleReservoirTopicMessage rC8 msgC8 "pump" 0 [] =
      some (handleReservoirPumpData rC8 false 0 (some 0), [], []) := by
  have hb : (jsTrim msgC8.raw = "1" || jsToLower (jsTrim msgC8.raw) = "true") = false := by decide
  have h := (c8_pump_coercion_amended rC8 msgC8 0 []).1 rfl
  rw [hb] at h
  exact h

/-!
## Claim C2 (command/ingestion round trip for the pump channel) -/

/-- The example reservoir with its pump channel configured for JSON payloads
in the envelope-send format, with path `data` — the path addressing the slot
in which `createChirpStackSendPayload` stores the encoded command. -/
def rC2 : Reservoir :=
  { reservoirEx with
      isJsonPayloadPump := true
      jsonFormatPump := "chirpstack_send"
      jsonPathPump := [⟨"data", []⟩] }

/-- The encoder output for a pump-on command, as delivered back to the pump
topic (raw text omitted: a JSON-configured channel only reads the parse). -/
def msgC2 : Msg := ⟨"", some (createChirpStackSendPayload "1")⟩

/-- Claim C2, evaluated: the encoder wraps the pump-on command `'1'` as
base64 `'MQ=='`; fed back through ingestion on the same channel with the
matching path `data`, extraction yields the undecoded base64 text, which the
pump coercion maps to `false` — the original logical value `true` is NOT
recovered (the ingestion side never base64-decodes, although it detects the
envelope-send format). -/
theorem c2_roundtrip_not_recovered :
    createChirpStackSendPayload "1" =
      vobj [("confirmed", vbool true), ("data", vstr "MQ=="), ("fPort", vnum 1)] ∧
    extractValueFromJSON (createChirpStackSendPayload "1") [⟨"data", []⟩] = vstr "MQ==" ∧
    pumpCoerce (vstr "MQ==") = false ∧
    (handleReservoirTopicMessage rC2 msgC2 "pump" 0 []).map (fun x => x.1.pumpStatus) =
      some false := by
  exact ⟨rfl, rfl, by decide, by decide⟩

/-!
## Claim C1 (topic routing) -/

/-- The per-sensor outcome of routing: a matching sensor is replaced by its
processed version (or kept when the message is dropped); since the sensor
component of processing does not depend on the history table, it is
evaluated at the empty history. -/
def sensorRouteResult (s : Sensor) (topic : String) (msg : Msg) (now : ℤ) : Sensor :=
  if s.topic = topic then
    match processSensorMessage s msg [] now with
    | some x => x.1
    | none => s
  else s

/-- The per-reservoir outcome of routing on the selected channel. -/
def reservoirRouteResult (r : Reservoir) (topic : String) (msg : Msg) (now : ℤ) : Reservoir :=
  match reservoirChannelFor r topic with
  | some chan =>
      match handleReservoirTopicMessage r msg chan now [] with
      | some x => x.1
      | none => r
  | none => r

/-- The sensor component of `processSensorMessage` is independent of the
history argument. -/
theorem processSensorMessage_fst_hist_indep (s : Sensor) (msg : Msg) (now : ℤ)
    (h1 h2 : List HistoryEntry) :
    (processSensorMessage s msg h1 now).map (fun x => x.1) =
    (processSensorMessage s msg h2 now).map (fun x => x.1) := by
  simp only [processSensorMessage]
  split <;> simp_all [handleSensorData]

/-- The reservoir component of `handleReservoirTopicMessage` is independent
of the history argument. -/
theorem handleReservoirTopicMessage_fst_hist_indep (r : Reservoir) (msg : Msg)
    (chan : String) (now : ℤ) (h1 h2 : List HistoryEntry) :
    (handleReservoirTopicMessage r msg chan now h1).map (fun x => x.1) =
    (handleReservoirTopicMessage r msg chan now h2).map (fun x => x.1) := by
  simp only [handleReservoirTopicMessage]
  split
  · rfl
  · split
    · rfl
    · split <;> try rfl
      split <;> simp_all [handleReservoirLevelData]

/-- The sensor list produced by the sensor route fold. -/
theorem foldl_sensorRouteStep_fst (topic : String) (msg : Msg) (now : ℤ) :
    ∀ (ss : List Sensor) (accS : List Sensor)
      (tbl : List (String × List HistoryEntry)) (al : List AlertEvent),
      (ss.foldl (sensorRouteStep topic msg now) (accS, tbl, al)).1 =
        accS ++ ss.map (fun s => sensorRouteResult s topic msg now) := by
  intro ss
  induction ss with
  | nil => intro accS tbl al; simp
  | cons s ss ih =>
      intro accS tbl al
      simp only [List.foldl_cons, List.map_cons]
      by_cases ht : s.topic = topic
      · rcases hpm : processSensorMessage s msg (histGet tbl s.id) now with _ | x
        · have hnil : processSensorMessage s msg [] now = none := by
            have h := processSensorMessage_fst_hist_indep s msg now [] (histGet tbl s.id)
            rw [hpm] at h
            simpa using h
          have hres : sensorRouteResult s topic msg now = s := by
            simp [sensorRouteResult, ht, hnil]
          simp only [sensorRouteStep, ht, if_pos, hpm]
          rw [ih, hres]
          simp
        · have hsome : (processSensorMessage s msg [] now).map (fun y => y.1) = some x.1 := by
            have h := processSensorMessage_fst_hist_indep s msg now [] (histGet tbl s.id)
            rw [hpm] at h
            simpa using h
          have hres : sensorRouteResult s topic msg now = x.1 := by
            rcases hx : processSensorMessage s msg [] now with _ | y
            · rw [hx] at hsome; simp at hsome
            · rw [hx] at hsome
              simp at hsome
              simp [sensorRouteResult, ht, hx, hsome]
          simp only [sensorRouteStep, ht, if_pos, hpm]
          rw [ih, hres]
          simp
      · have hres : sensorRouteResult s topic msg now = s := by
          simp [sensorRouteResult, ht]
        simp only [sensorRouteStep, ht, if_neg, ite_false]
        rw [ih, hres]
        simp

/-- The reservoir list produced by the reservoir route fold. -/
theorem foldl_reservoirRouteStep_fst (topic : String) (msg : Msg) (now : ℤ) :
    ∀ (rs : List Reservoir) (accR : List Reservoir)
      (tbl : List (String × List HistoryEntry)) (al : List AlertEvent),
      (rs.foldl (reservoirRouteStep topic msg now) (accR, tbl, al)).1 =
        accR ++ rs.map (fun r => reservoirRouteResult r topic msg now) := by
  intro rs
  induction rs with
  | nil => intro accR tbl al; simp
  | cons r rs ih =>
      intro accR tbl al
      simp only [List.foldl_cons, List.map_cons]
      rcases hc : reservoirChannelFor r topic with _ | chan
      · have hres : reservoirRouteResult r topic msg now = r := by
          simp [reservoirRouteResult, hc]
        simp only [reservoirRouteStep, hc]
        rw [ih, hres]
        simp
      · rcases hpm : handleReservoirTopicMessage r msg chan now (histGet tbl r.id) with _ | x
        · have hnil : handleReservoirTopicMessage r msg chan now [] = none := by
            have h := handleReservoirTopicMessage_fst_hist_indep r msg chan now []
              (histGet tbl r.id)
            rw [hpm] at h
            simpa using h
          have hres : reservoirRouteResult r topic msg now = r := by
            simp [reservoirRouteResult, hc, hnil]
          simp only [reservoirRouteStep, hc, hpm]
          rw [ih, hres]
          simp
        · have hsome : (handleReservoirTopicMessage r msg chan now []).map (fun y => y.1) =
              some x.1 := by
            have h := handleReservoirTopicMessage_fst_hist_indep r msg chan now []
              (histGet tbl r.id)
            rw [hpm] at h
            simpa using h
          have hres : reservoirRouteResult r topic msg now = x.1 := by
            rcases hx : handleReservoirTopicMessage r msg chan now [] with _ | y
            · rw [hx] at hsome; simp at hsome
            · rw [hx] at hsome
              simp at hsome
              simp [reservoirRouteResult, hc, hx, hsome]
          simp only [reservoirRouteStep, hc, hpm]
          rw [ih, hres]
          simp

/-- The example sensor re-bound to a topic it shares with a reservoir. -/
def sC1 : Sensor := { sensorEx with topic := "agriculture/shared" }

/-- The example reservoir with its level topic on that shared topic. -/
def rC1 : Reservoir := { reservoirEx with topic := "agriculture/shared" }

/-- A station where a sensor and a reservoir level channel share one topic. -/
def stC1 : StationState := ⟨[sC1], [rC1], [], []⟩

/-- The raw numeric payload `42`. -/
def msgC1 : Msg := ⟨"42", some (vnum 42)⟩

/-- A station holding only a reservoir whose fill topic is subscribed. -/
def stFill : StationState := ⟨[], [reservoirEx], [], []⟩

section
attribute [local semireducible] Rat.mul Rat.inv Rat.add Rat.sub

/-- Counterexample to claim C1 as stated: on the shared topic the sensor is
updated to 42 but the reservoir — whose level topic equals the same topic —
is left completely unchanged (level still 50), because the handler returns
after processing sensors; and a message on a reservoir's fill topic changes
nothing at all (fill messages are never dispatched). -/
theorem c1_counterexample :
    sC1.topic = "agriculture/shared" ∧ rC1.topic = "agriculture/shared" ∧
    ((processMessage stC1 "agriculture/shared" msgC1 0).state).sensors.map Sensor.value =
      [42] ∧
    ((processMessage stC1 "agriculture/shared" msgC1 0).state).reservoirs = [rC1] ∧
    rC1.currentLevel = 50 ∧
    reservoirEx.fillTopic = some "agriculture/fill" ∧
    (processMessage stFill "agriculture/fill" msgC1 0).state = stFill ∧
    (processMessage stFill "agriculture/fill" msgC1 0).alerts = [] := by
  refine ⟨rfl, rfl, by decide, by decide, by decide, rfl, by decide, by decide⟩

end

/-- Claim C1 amended: if at least one sensor's topic equals the inbound
topic, the message is delivered to every such sensor and the reservoirs
(and their histories) are untouched; otherwise each reservoir is processed
on the first of its level, pump and mode topics that matches — a reservoir
whose only match is its fill topic selects no channel and is unchanged, so
fill-channel messages are never processed. -/
theorem c1_topic_routing_amended (st : StationState) (topic : String) (msg : Msg) (now : ℤ) :
    ((∃ s ∈ st.sensors, s.topic = topic) →
      (processMessage st topic msg now).state.reservoirs = st.reservoirs ∧
      (processMessage st topic msg now).state.reservoirHistory = st.reservoirHistory ∧
      (processMessage st topic msg now).state.sensors =
        st.sensors.map (fun s => sensorRouteResult s topic msg now)) ∧
    ((¬ ∃ s ∈ st.sensors, s.topic = topic) →
      (processMessage st topic msg now).state.sensors = st.sensors ∧
      (processMessage st topic msg now).state.sensorHistory = st.sensorHistory ∧
      (processMessage st topic msg now).state.reservoirs =
        st.reservoirs.map (fun r => reservoirRouteResult r topic msg now)) ∧
    (∀ r : Reservoir, reservoirChannelFor r topic = none ↔
      (r.topic ≠ topic ∧ r.pumpTopic ≠ some topic ∧ r.modeTopic ≠ some topic)) ∧
    (∀ s : Sensor, s.topic ≠ topic → sensorRouteResult s topic msg now = s) := by
  refine ⟨?_, ?_, ?_, ?_⟩
  · rintro ⟨s0, hs0, ht0⟩
    have hpos : 0 < (st.sensors.filter (fun s => s.topic = topic)).length := by
      rw [List.length_pos]
      intro hnil
      have : s0 ∈ st.sensors.filter (fun s => s.topic = topic) := by
        rw [List.mem_filter]
        exact ⟨hs0, by simp [ht0]⟩
      rw [hnil] at this
      simp at this
    simp only [processMessage, if_pos hpos, routeToSensors]
    refine ⟨trivial, trivial, ?_⟩
    simpa using foldl_sensorRouteStep_fst topic msg now st.sensors [] st.sensorHistory []
  · intro hno
    have hzero : ¬ 0 < (st.sensors.filter (fun s => s.topic = topic)).length := by
      rw [List.length_pos]
      intro hne
      rcases List.exists_mem_of_ne_nil _ hne with ⟨s0, hs0⟩
      rw [List.mem_filter] at hs0
      exact hno ⟨s0, hs0.1, by simpa using hs0.2⟩
    simp only [processMessage, if_neg hzero]
    split
    · simp only [routeToReservoirs]
      refine ⟨trivial, trivial, ?_⟩
      simpa using foldl_reservoirRouteStep_fst topic msg now st.reservoirs []
        st.reservoirHistory []
    · rename_i hrz
      refine ⟨rfl, rfl, ?_⟩
      have hempty : ∀ r ∈ st.reservoirs, reservoirRouteResult r topic msg now = r := by
        intro r hr
        have hnotin : ¬ (r.topic = topic || r.pumpTopic = some topic || r.fillTopic = some topic
            || r.modeTopic = some topic) = true := by
          intro hmem
          apply hrz
          rw [gt_iff_lt, List.length_pos]
          intro hnil
          have : r ∈ st.reservoirs.filter (fun r => r.topic = topic ||
              r.pumpTopic = some topic || r.fillTopic = some topic ||
              r.modeTopic = some topic) := by
            rw [List.mem_filter]
            exact ⟨hr, hmem⟩
          rw [hnil] at this
          simp at this
        simp only [Bool.or_eq_true, decide_eq_true_eq, not_or] at hnotin
        obtain ⟨⟨⟨h1, h2⟩, h3⟩, h4⟩ := hnotin
        simp [reservoirRouteResult, reservoirChannelFor, h1, h2, h4]
      calc st.reservoirs = st.reservoirs.map id := by simp
        _ = st.reservoirs.map (fun r => reservoirRouteResult r topic msg now) := by
            exact (List.map_congr_left (fun r hr => by simp [hempty r hr])).symm
  · intro r
    constructor
    · intro hc
      simp only [reservoirChannelFor] at hc
      split_ifs at hc <;> simp_all
    · rintro ⟨h1, h2, h3⟩
      simp [reservoirChannelFor, h1, h2, h3]
  · intro s hs
    simp [sensorRouteResult, hs]

/-- Witness for the amended C1: on the shared-topic station the reservoirs
are untouched, and the fill-only reservoir selects no channel. -/
theorem c1_topic_routing_amended_witness :
    (processMessage stC1 "agriculture/shared" msgC1 0).state.reservoirs = stC1.reservoirs ∧
    reservoirChannelFor reservoirEx "agriculture/fill" = none := by
  refine ⟨((c1_topic_routing_amended stC1 "agriculture/shared" msgC1 0).1
      ⟨sC1, by simp [stC1], rfl⟩).1, ?_⟩
  exact ((c1_topic_routing_amended stC1 "agriculture/fill" msgC1 0).2.2.1 reservoirEx).mpr
    ⟨by decide, by decide, by decide⟩

/-!
## Claim C6 (history queries) -/

/-- Ceiling-division step: how the ceiling of `(n+1)/s` relates to that of
`n/s` (in the `(x + s - 1) / s` form used by the decimation). -/
theorem cdiv_succ (s : ℕ) (hs : 0 < s) (n : ℕ) :
    (n + 1 + s - 1) / s = (n + s - 1) / s + (if n % s = 0 then 1 else 0) := by
  obtain ⟨q, r, hr, rfl⟩ : ∃ q r, r < s ∧ s * q + r = n :=
    ⟨n / s, n % s, Nat.mod_lt n hs, Nat.div_add_mod n s⟩
  have hmod : (s * q + r) % s = r := by
    rw [Nat.mul_add_mod, Nat.mod_eq_of_lt hr]
  rw [hmod]
  rcases Nat.eq_zero_or_pos r with h0 | hpos
  · subst h0
    rw [if_pos rfl]
    have e1 : s * q + 0 + 1 + s - 1 = s * (q + 1) := by ring_nf; omega
    have e2 : s * q + 0 + s - 1 = s * q + (s - 1) := by omega
    rw [e1, e2, Nat.mul_div_cancel_left _ hs, Nat.mul_add_div hs,
      Nat.div_eq_of_lt (by omega)]
  · rw [if_neg (by omega)]
    have e1 : s * q + r + 1 + s - 1 = s * (q + 1) + r := by ring_nf; omega
    have e2 : s * q + r + s - 1 = s * (q + 1) + (r - 1) := by ring_nf; omega
    rw [e1, e2, Nat.mul_add_div hs, Nat.mul_add_div hs,
      Nat.div_eq_of_lt hr, Nat.div_eq_of_lt (by omega)]

/-- Index-filtering yields a sublist (order preserved, elements only
dropped). -/
theorem filterIdx_sublist {α : Type} (p : ℕ → Bool) :
    ∀ (xs : List α) (i : ℕ), (filterIdx p i xs).Sublist xs := by
  intro xs
  induction xs with
  | nil => intro i; simp [filterIdx]
  | cons x xs ih =>
      intro i
      simp only [filterIdx]
      split
      · exact (ih (i + 1)).cons₂ x
      · exact (ih (i + 1)).cons x

/-- Exact count of the kept indices of the stride filter. -/
theorem filterIdx_mod_length {α : Type} (s : ℕ) (hs : 0 < s) :
    ∀ (xs : List α) (i : ℕ),
      (filterIdx (fun j => decide (j % s = 0)) i xs).length =
        (i + xs.length + s - 1) / s - (i + s - 1) / s := by
  intro xs
  induction xs with
  | nil =>
      intro i
      simp [filterIdx]
  | cons x xs ih =>
      intro i
      have hstep := cdiv_succ s hs i
      have hmono : (i + s - 1) / s ≤ (i + 1 + xs.length + s - 1) / s :=
        Nat.div_le_div_right (by omega)
      have hmono2 : (i + 1 + s - 1) / s ≤ (i + 1 + xs.length + s - 1) / s :=
        Nat.div_le_div_right (by omega)
      have hnum : i + (xs.length + 1) + s - 1 = i + 1 + xs.length + s - 1 := by omega
      simp only [filterIdx, List.length_cons, hnum]
      by_cases hmod : i % s = 0
      · rw [if_pos (by simpa using hmod)]
        rw [if_pos hmod] at hstep
        simp only [List.length_cons, ih (i + 1)]
        omega
      · rw [if_neg (by simpa using hmod)]
        rw [if_neg hmod] at hstep
        rw [ih (i + 1)]
        omega

/-- Keeping every `stride`-th of `len` points with
`stride = ceil(len / m)` keeps at most `m` points. -/
theorem ceil_stride_count_le (len m : ℕ) (hm : 0 < m) (hlen : 0 < len) :
    (len + (len + m - 1) / m - 1) / ((len + m - 1) / m) ≤ m := by
  have hceil : (len + m - 1) / m = len ⌈/⌉ m := (Nat.ceilDiv_eq_add_pred_div len m).symm
  have hsm : len ≤ m * ((len + m - 1) / m) := by
    rw [hceil]
    have := le_smul_ceilDiv (b := len) hm
    simpa [smul_eq_mul] using this
  have hs : 0 < (len + m - 1) / m := by
    rcases Nat.eq_zero_or_pos ((len + m - 1) / m) with h | h
    · rw [h, Nat.mul_zero] at hsm
      omega
    · exact h
  have h2 : (len + (len + m - 1) / m - 1) / ((len + m - 1) / m) =
      len ⌈/⌉ ((len + m - 1) / m) := (Nat.ceilDiv_eq_add_pred_div _ _).symm
  rw [h2]
  rw [ceilDiv_le_iff_le_mul hs]
  calc len ≤ m * ((len + m - 1) / m) := hsm
    _ = (len + m - 1) / m * m := Nat.mul_comm _ _

/-- Claim C6 amended: for `maxPoints ≥ 1` (the claim fails at
`maxPoints = 0`, where the JS stride is `Infinity` and one point is kept),
the history query returns at most `maxPoints` points, each drawn — in
insertion order, as a sublist — from the records whose timestamp is at
least `now` minus the period's window. -/
theorem c6_history_query_amended (history : List HistoryEntry) (period : String)
    (maxPoints : ℕ) (now : ℤ) (hmp : 1 ≤ maxPoints) :
    (filterHistoryByPeriod history period maxPoints now).length ≤ maxPoints ∧
    (filterHistoryByPeriod history period maxPoints now).Sublist
      ((history.filter (fun rec => decide (periodStartTime now period ≤ rec.timestamp))).map
        (fun rec => ⟨rec.timestamp, rec.value, rec.receivedTimestamp⟩)) ∧
    (∀ p ∈ filterHistoryByPeriod history period maxPoints now,
      periodStartTime now period ≤ p.timestamp) := by
  have hmem : ∀ (l : List HistoryEntry),
      l.Sublist (history.filter (fun rec => decide (periodStartTime now period ≤ rec.timestamp))) →
      ∀ p ∈ l.map (fun rec => (⟨rec.timestamp, rec.value, rec.receivedTimestamp⟩ : ChartPoint)),
        periodStartTime now period ≤ p.timestamp := by
    intro l hsub p hp
    rcases List.mem_map.mp hp with ⟨rec, hrec, rfl⟩
    have : rec ∈ history.filter (fun rec => decide (periodStartTime now period ≤ rec.timestamp)) :=
      hsub.subset hrec
    rw [List.mem_filter] at this
    simpa using this.2
  simp only [filterHistoryByPeriod]
  by_cases hlen : (history.filter
      (fun rec => decide (periodStartTime now period ≤ rec.timestamp))).length > maxPoints
  · rw [if_pos hlen, if_neg (by omega)]
    set F := history.filter (fun rec => decide (periodStartTime now period ≤ rec.timestamp))
      with hF
    set s := (F.length + maxPoints - 1) / maxPoints with hsdef
    refine ⟨?_, ?_, ?_⟩
    · rw [List.length_map]
      have hs : 0 < s := by
        have hFpos : 0 < F.length := by omega
        rcases Nat.eq_zero_or_pos s with h | h
        · exfalso
          have hceil : s = F.length ⌈/⌉ maxPoints := by
            rw [hsdef]
            exact (Nat.ceilDiv_eq_add_pred_div _ _).symm
          have hsm : F.length ≤ maxPoints * s := by
            rw [hceil]
            simpa [smul_eq_mul] using le_smul_ceilDiv (b := F.length) (by omega : 0 < maxPoints)
          rw [h, Nat.mul_zero] at hsm
          omega
        · exact h
      rw [filterIdx_mod_length s hs F 0]
      simp only [Nat.zero_add]
      have hz : (s - 1) / s = 0 := Nat.div_eq_of_lt (by omega)
      rw [hz, Nat.sub_zero]
      exact ceil_stride_count_le F.length maxPoints (by omega) (by omega)
    · exact (filterIdx_sublist _ F 0).map _
    · exact hmem _ (filterIdx_sublist _ F 0)
  · rw [if_neg hlen]
    refine ⟨?_, ?_, ?_⟩
    · rw [List.length_map]
      omega
    · exact List.Sublist.refl _
    · exact hmem _ (List.Sublist.refl _)

section
attribute [local semireducible] Rat.mul Rat.inv Rat.add Rat.sub

/-- Counterexample to claim C6 as stated: with `maxPoints = 0` and one
in-window record, the query returns one point — more than `maxPoints`. -/
theorem c6_counterexample :
    (filterHistoryByPeriod [⟨0, 1, none⟩] "1h" 0 0).length = 1 ∧
    ¬ (filterHistoryByPeriod [⟨0, 1, none⟩] "1h" 0 0).length ≤ 0 := by
  refine ⟨by decide, by decide⟩

end

/-- Witness for the amended C6: a one-point history queried with
`maxPoints = 50` returns at most 50 points. -/
theorem c6_history_query_amended_witness :
    (filterHistoryByPeriod [⟨0, 1, none⟩] "1h" 50 0).length ≤ 50 :=
  (c6_history_query_amended [⟨0, 1, none⟩] "1h" 50 0 (by norm_num)).1

/-!
## Claim C7 (path extraction totality and refinement) -/

/-- An identifier head character (letter or underscore) is not a digit. -/
theorem char_head_not_digit (c : Char) (h : (c.isAlpha || c = '_') = true) :
    c.isDigit = false := by
  by_contra hne
  rw [Bool.not_eq_false] at hne
  simp only [Char.isDigit, Bool.and_eq_true, decide_eq_true_eq] at hne
  obtain ⟨hd1, hd2⟩ := hne
  have hdn1 : 48 ≤ c.val.toNat := UInt32.le_toNat_of_le (by decide) hd1
  have hdn2 : c.val.toNat ≤ 57 := UInt32.toNat_le_of_le (by decide) hd2
  rcases Bool.or_eq_true_iff.mp h with ha | hu
  · simp only [Char.isAlpha, Char.isUpper, Char.isLower, Bool.or_eq_true_iff,
      Bool.and_eq_true, decide_eq_true_eq] at ha
    rcases ha with ⟨h1, _⟩ | ⟨h1, _⟩
    · have h2 := UInt32.le_toNat_of_le (by decide) h1
      simp at h2
      omega
    · have h2 := UInt32.le_toNat_of_le (by decide) h1
      simp at h2
      omega
  · simp only [decide_eq_true_eq] at hu
    subst hu
    exact absurd hdn2 (by decide)

/-- A valid identifier is never an all-digit string (so it can never be an
array index key). -/
theorem validIdent_not_digitString (s : String) (h : validIdent s = true) :
    isDigitString s = false := by
  rcases hsd : s.data with _ | ⟨c, cs⟩
  · have hs : s = "" := by
      apply String.ext
      simpa using hsd
    simp [isDigitString, hs]
  · simp only [validIdent, hsd, Bool.and_eq_true] at h
    have hc : c.isDigit = false := char_head_not_digit c h.1
    simp [isDigitString, hsd, hc]

/-- `hasOwnProperty` on a plain object agrees with key lookup. -/
theorem any_key_eq_find?_isSome (fields : List (String × JSValue)) (k : String) :
    fields.any (fun f => f.1 = k) = (fields.find? (fun f => f.1 = k)).isSome := by
  induction fields with
  | nil => rfl
  | cons f fs ih =>
      by_cases hf : f.1 = k
      · simp [List.any_cons, List.find?_cons_of_pos, hf]
      · rw [List.any_cons, List.find?_cons_of_neg _ (by simpa using hf)]
        simp [hf, ih]

/-- Success direction of the extraction loop: on a document with the exact
nested shape (the spec resolution succeeds), the loop ends on the addressed
value. -/
theorem extractLoop_spec_some :
    ∀ (ps : List PathPiece) (cur v : JSValue),
      (∀ p ∈ ps, p.idxs.length ≤ 1) →
      specResolve cur (flattenPieces ps) = some v →
      extractLoop cur ps = ExtractStepResult.next v := by
  intro ps
  induction ps with
  | nil =>
      intro cur v _ hspec
      simp [flattenPieces, specResolve] at hspec
      simp [extractLoop, hspec]
  | cons p ps ih =>
      intro cur v hsingle hspec
      rcases p with ⟨name, idxs⟩
      rcases idxs with _ | ⟨i, rest⟩
      · -- dotted piece
        simp only [flattenPieces, List.flatMap_cons, List.map_nil, List.cons_append,
          List.nil_append] at hspec
        rcases cur with _ | _ | b | q | str | xs | fields
        case vnull => simp [specResolve] at hspec
        case vundef => simp [specResolve] at hspec
        case vbool => simp [specResolve] at hspec
        case vnum => simp [specResolve] at hspec
        case vstr => simp [specResolve] at hspec
        case varr => simp [specResolve] at hspec
        case vobj =>
          simp only [specResolve] at hspec
          rcases hf : fields.find? (fun f => f.1 = name) with _ | f
          · rw [hf] at hspec; exact absurd hspec (by simp)
          · rw [hf] at hspec
            have hkey : hasOwnKey (vobj fields) name = true := by
              simp only [hasOwnKey, any_key_eq_find?_isSome, hf, Option.isSome_some]
            simp only [extractLoop, extractStep, truthy, typeofIsObject]
            rw [if_pos (by simp [hkey])]
            simp only [getProp, hf]
            exact ih f.2 v (fun q hq => hsingle q (List.mem_cons_of_mem _ hq))
              (by simpa [flattenPieces] using hspec)
      · -- bracket piece: at most one index, so rest = []
        have hr : rest = [] := by
          have := hsingle ⟨name, i :: rest⟩ (List.mem_cons_self _ _)
          simpa using this
        subst hr
        simp only [flattenPieces, List.flatMap_cons, List.map_cons, List.map_nil,
          List.cons_append, List.nil_append] at hspec
        rcases cur with _ | _ | b | q | str | xs | fields
        case vnull => simp [specResolve] at hspec
        case vundef => simp [specResolve] at hspec
        case vbool => simp [specResolve] at hspec
        case vnum => simp [specResolve] at hspec
        case vstr => simp [specResolve] at hspec
        case varr => simp [specResolve] at hspec
        case vobj =>
          simp only [specResolve] at hspec
          rcases hf : fields.find? (fun f => f.1 = name) with _ | f
          · rw [hf] at hspec; exact absurd hspec (by simp)
          · rw [hf] at hspec
            dsimp only at hspec
            rcases hfv : f.2 with _ | _ | b2 | q2 | s2 | ys | gs <;> rw [hfv] at hspec <;>
              dsimp only at hspec
            case vnull => simp at hspec
            case vundef => simp at hspec
            case vbool => simp at hspec
            case vnum => simp at hspec
            case vstr => simp at hspec
            case vobj => simp at hspec
            case varr =>
              rcases hel : ys.get? i with _ | el
              · rw [hel] at hspec; exact absurd hspec (by simp)
              · rw [hel] at hspec
                dsimp only at hspec
                simp only [extractLoop, extractStep]
                have hget : getProp (vobj fields) name = varr ys := by
                  simp only [getProp, hf, hfv]
                rw [hget]
                simp only [truthy, isArray, Bool.and_self, if_true]
                have harr : arrGet (varr ys) i = el := by
                  simp only [arrGet, hel]
                rw [harr]
                exact ih el v (fun q hq => hsingle q (List.mem_cons_of_mem _ hq))
                  (by simpa [flattenPieces] using hspec)

/-- Failure direction of the extraction loop: when the spec resolution is
absent (missing key, wrong shape, or out-of-bounds index), the loop ends in
`return null`, a caught `TypeError`, or the JS `undefined` value — never in
a defined extracted value. -/
theorem extractLoop_spec_none :
    ∀ (ps : List PathPiece) (cur : JSValue),
      (∀ p ∈ ps, validIdent p.name = true) →
      (∀ p ∈ ps, p.idxs.length ≤ 1) →
      (∀ p ∈ ps, p.idxs = [] → p.name ≠ "length") →
      specResolve cur (flattenPieces ps) = none →
      extractLoop cur ps = ExtractStepResult.retNull ∨
      extractLoop cur ps = ExtractStepResult.thrown ∨
      extractLoop cur ps = ExtractStepResult.next vundef := by
  intro ps
  induction ps with
  | nil =>
      intro cur _ _ _ hspec
      simp [flattenPieces, specResolve] at hspec
  | cons p ps ih =>
      intro cur hvalid hsingle hlen hspec
      have hvalid' : ∀ q ∈ ps, validIdent q.name = true :=
        fun q hq => hvalid q (List.mem_cons_of_mem _ hq)
      have hsingle' : ∀ q ∈ ps, q.idxs.length ≤ 1 :=
        fun q hq => hsingle q (List.mem_cons_of_mem _ hq)
      have hlen' : ∀ q ∈ ps, q.idxs = [] → q.name ≠ "length" :=
        fun q hq => hlen q (List.mem_cons_of_mem _ hq)
      rcases p with ⟨name, idxs⟩
      have hnamevalid : validIdent name = true := hvalid ⟨name, idxs⟩ (List.mem_cons_self _ _)
      have hnodig : isDigitString name = false := validIdent_not_digitString name hnamevalid
      rcases idxs with _ | ⟨i, rest⟩
      · -- dotted piece: `return null` on every mismatch
        have hnl : name ≠ "length" := hlen ⟨name, []⟩ (List.mem_cons_self _ _) rfl
        simp only [flattenPieces, List.flatMap_cons, List.map_nil, List.cons_append,
          List.nil_append] at hspec
        rcases cur with _ | _ | b | q | str | xs | fields
        case vnull => left; simp [extractLoop, extractStep, truthy]
        case vundef => left; simp [extractLoop, extractStep, truthy]
        case vbool => left; simp [extractLoop, extractStep, typeofIsObject]
        case vnum => left; simp [extractLoop, extractStep, typeofIsObject]
        case vstr => left; simp [extractLoop, extractStep, typeofIsObject]
        case varr =>
          left
          have hkey : hasOwnKey (varr xs) name = false := by
            simp [hasOwnKey, hnl, hnodig]
          simp [extractLoop, extractStep, hkey]
        case vobj =>
          simp only [specResolve] at hspec
          rcases hf : fields.find? (fun f => f.1 = name) with _ | f
          · left
            have hkey : hasOwnKey (vobj fields) name = false := by
              simp only [hasOwnKey, any_key_eq_find?_isSome, hf, Option.isSome_none]
            simp [extractLoop, extractStep, hkey]
          · rw [hf] at hspec
            dsimp only at hspec
            have hkey : hasOwnKey (vobj fields) name = true := by
              simp only [hasOwnKey, any_key_eq_find?_isSome, hf, Option.isSome_some]
            have hstep : extractLoop (vobj fields) (⟨name, []⟩ :: ps) = extractLoop f.2 ps := by
              simp only [extractLoop, extractStep, truthy, typeofIsObject]
              rw [if_pos (by simp [hkey])]
              simp only [getProp, hf]
            rw [hstep]
            exact ih f.2 hvalid' hsingle' hlen' (by simpa [flattenPieces] using hspec)
      · -- bracket piece
        have hr : rest = [] := by
          have := hsingle ⟨name, i :: rest⟩ (List.mem_cons_self _ _)
          simpa using this
        subst hr
        simp only [flattenPieces, List.flatMap_cons, List.map_cons, List.map_nil,
          List.cons_append, List.nil_append] at hspec
        rcases cur with _ | _ | b | q | str | xs | fields
        case vnull => right; left; simp [extractLoop, extractStep]
        case vundef => right; left; simp [extractLoop, extractStep]
        case vbool =>
          left
          simp [extractLoop, extractStep, getProp, truthy]
        case vnum =>
          left
          simp [extractLoop, extractStep, getProp, truthy]
        case vstr =>
          left
          by_cases hl : name = "length"
          · simp [extractLoop, extractStep, getProp, hl, truthy, isArray]
          · simp [extractLoop, extractStep, getProp, hl, hnodig, truthy]
        case varr =>
          left
          by_cases hl : name = "length"
          · simp [extractLoop, extractStep, getProp, hl, truthy, isArray]
          · simp [extractLoop, extractStep, getProp, hl, hnodig, truthy]
        case vobj =>
          simp only [specResolve] at hspec
          rcases hf : fields.find? (fun f => f.1 = name) with _ | f
          · left
            have hget : getProp (vobj fields) name = vundef := by
              simp only [getProp, hf]
            simp [extractLoop, extractStep, hget, truthy]
          · rw [hf] at hspec
            dsimp only at hspec
            rcases hfv : f.2 with _ | _ | b2 | q2 | s2 | ys | gs <;> rw [hfv] at hspec <;>
              dsimp only at hspec
            case vnull =>
              left
              have hget : getProp (vobj fields) name = vnull := by simp only [getProp, hf, hfv]
              simp [extractLoop, extractStep, hget, truthy]
            case vundef =>
              left
              have hget : getProp (vobj fields) name = vundef := by simp only [getProp, hf, hfv]
              simp [extractLoop, extractStep, hget, truthy]
            case vbool =>
              left
              have hget : getProp (vobj fields) name = vbool b2 := by
                simp only [getProp, hf, hfv]
              simp [extractLoop, extractStep, hget, isArray]
            case vnum =>
              left
              have hget : getProp (vobj fields) name = vnum q2 := by
                simp only [getProp, hf, hfv]
              simp [extractLoop, extractStep, hget, isArray]
            case vstr =>
              left
              have hget : getProp (vobj fields) name = vstr s2 := by
                simp only [getProp, hf, hfv]
              simp [extractLoop, extractStep, hget, isArray]
            case vobj =>
              left
              have hget : getProp (vobj fields) name = vobj gs := by
                simp only [getProp, hf, hfv]
              simp [extractLoop, extractStep, hget, isArray]
            case varr =>
              have hget : getProp (vobj fields) name = varr ys := by
                simp only [getProp, hf, hfv]
              have hstep : extractLoop (vobj fields) (⟨name, [i]⟩ :: ps) =
                  extractLoop (arrGet (varr ys) i) ps := by
                simp only [extractLoop, extractStep, hget, truthy, isArray, Bool.and_self,
                  if_true]
              rw [hstep]
              rcases hel : ys.get? i with _ | el
              · -- out of bounds: current becomes undefined
                have harr : arrGet (varr ys) i = vundef := by simp only [arrGet, hel]
                rw [harr]
                rcases ps with _ | ⟨q, qs⟩
                · right; right
                  simp [extractLoop]
                · have hspecu : specResolve vundef (flattenPieces (q :: qs)) = none := by
                    simp [flattenPieces, specResolve]
                  exact ih vundef hvalid' hsingle' hlen' hspecu
              · rw [hel] at hspec
                dsimp only at hspec
                have harr : arrGet (varr ys) i = el := by simp only [arrGet, hel]
                rw [harr]
                exact ih el hvalid' hsingle' hlen' (by simpa [flattenPieces] using hspec)

/-- Claim C7 amended: for grammar-valid path expressions in which every
segment carries at most one bracket index and no bracket-free segment is
named `length` (see the counterexample for why both restrictions are
forced), extraction is total and agrees with the spec semantics: on a
document with the exact nested shape it returns the addressed value, and on
any mismatch (missing key, wrong shape, out-of-bounds index) it returns an
absent result — JS `null` or `undefined` — and never a thrown error. -/
theorem c7_path_extraction_amended (doc : JSValue) (ps : List PathPiece)
    (hvalid : validPathPieces ps = true)
    (hsingle : ∀ p ∈ ps, p.idxs.length ≤ 1)
    (hlen : ∀ p ∈ ps, p.idxs = [] → p.name ≠ "length") :
    (∀ v, specResolve doc (flattenPieces ps) = some v → extractValueFromJSON doc ps = v) ∧
    (specResolve doc (flattenPieces ps) = none →
      extractValueFromJSON doc ps = vnull ∨ extractValueFromJSON doc ps = vundef) := by
  have hvp := hvalid
  simp only [validPathPieces, Bool.and_eq_true, List.all_eq_true, decide_eq_true_eq] at hvp
  have hne : ps ≠ [] := by simpa using hvp.1
  have hallvalid : ∀ p ∈ ps, validIdent p.name = true := fun p hp => hvp.2 p hp
  constructor
  · intro v hs
    have htruthy : truthy doc = true := by
      by_contra htr
      rcases ps with _ | ⟨p, ps'⟩
      · exact hne rfl
      · rcases doc with _ | _ | b | q | str | xs | fields
        case vobj => exact htr rfl
        case varr => exact htr rfl
        all_goals
          simp only [flattenPieces, List.flatMap_cons, List.cons_append, specResolve] at hs
        all_goals simp at hs
    have hguard : (decide (ps = []) || !truthy doc) = false := by
      simp [hne, htruthy]
    have hloop := extractLoop_spec_some ps doc v hsingle hs
    simp only [extractValueFromJSON, hguard, Bool.false_eq_true, if_false, hloop]
  · intro hs
    by_cases htr : truthy doc = true
    · have hguard : (decide (ps = []) || !truthy doc) = false := by
        simp [hne, htr]
      have h2 := extractLoop_spec_none ps doc hallvalid hsingle hlen hs
      rcases h2 with h | h | h <;>
        simp [extractValueFromJSON, hguard, Bool.false_eq_true, if_false, h]
    · left
      have hguard : (decide (ps = []) || !truthy doc) = true := by
        simp [Bool.eq_false_iff.mpr]
        simp at htr
        simp [htr]
      simp only [extractValueFromJSON, hguard, if_true]

/-- Counterexample to claim C7 as stated: the expression `a[0][1]` is
accepted by the grammar (`validateJSONPath`), and on the document
`{a: [[10, 20]]}` its addressed value is `20`; but the code reads only
the first bracket group of a piece, so extraction returns the inner array
`[10, 20]`, not the addressed value (and not an absent result either). -/
theorem c7_counterexample :
    validPathPieces [⟨"a", [0, 1]⟩] = true ∧
    specResolve (vobj [("a", varr [varr [vnum 10, vnum 20]])])
      (flattenPieces [⟨"a", [0, 1]⟩]) = some (vnum 20) ∧
    extractValueFromJSON (vobj [("a", varr [varr [vnum 10, vnum 20]])]) [⟨"a", [0, 1]⟩] =
      varr [vnum 10, vnum 20] ∧
    varr [vnum 10, vnum 20] ≠ vnum 20 :=
  ⟨by decide, rfl, rfl, fun h => JSValue.noConfusion h⟩

/-- Witness for the amended C7 at the ChirpStack-style path
`object.temperature_c`: the exact shape yields the value, a missing key
yields an absent result. -/
theorem c7_path_extraction_amended_witness :
    extractValueFromJSON (vobj [("object", vobj [("temperature_c", vnum 21)])])
      [⟨"object", []⟩, ⟨"temperature_c", []⟩] = vnum 21 ∧
    (extractValueFromJSON (vobj [("object", vobj [])])
        [⟨"object", []⟩, ⟨"temperature_c", []⟩] = vnull ∨
      extractValueFromJSON (vobj [("object", vobj [])])
        [⟨"object", []⟩, ⟨"temperature_c", []⟩] = vundef) := by
  constructor
  · exact (c7_path_extraction_amended (vobj [("object", vobj [("temperature_c", vnum 21)])])
      [⟨"object", []⟩, ⟨"temperature_c", []⟩] (by decide) (by decide) (by decide)).1
      (vnum 21) rfl
  · exact (c7_path_extraction_amended (vobj [("object", vobj [])])
      [⟨"object", []⟩, ⟨"temperature_c", []⟩] (by decide) (by decide) (by decide)).2 rfl
